import Mathlib

/-
Verification of botmother-analyzer (src/app.py).

The file embeds the two pieces of the program that the claims are about:

* `parse_yandex_result` (src/app.py lines 143-250): the extractor that turns a
  decoded Yandex Vision JSON response into the record written to the sheet.
  The embedding models decoded JSON values (`Json`), Python truthiness,
  `dict.get`, the `in` operator, subscripting, iteration, the `try/except`
  block around the collection loop (an exception stops collection but keeps
  what was collected so far), the un-guarded `walk_for_text` recursion, the
  `", ".join` call (which raises `TypeError` on non-string labels) and the
  `re.search(r"[A-Z0-9\-]{4,}", t, re.I)` loop (which raises `TypeError` on a
  non-string fragment).  Numbers are modelled as integers, which covers every
  value the claims exercise.  The function therefore returns
  `Except Unit (List (String × Json))`: `.error` models an uncaught Python
  exception, `.ok` the returned dict in construction order.

* `worker_process` (src/app.py lines 280-403): the batch worker.  The Google
  collaborators are modelled by their observable outcomes: initialization and
  listing as `Except`, and each listed file by an `ItemSpec` giving the result
  of its download, its Yandex Vision call, and whether the sheet append and
  the Drive move succeed.  The worker's effects are collected in a
  `WorkerResult`: the run-state fields (`error`, `done`, `processed`,
  `total`), the appended data rows, the successful moves, and an event trace
  (item starts and inter-batch pauses) used for the batching claims.  Header
  insertion by `ensure_sheet_headers` happens inside initialization and is
  not a data row, so it is outside the row trace.
-/

namespace Botmother

/-- Decoded JSON values as produced by `resp.json()`.  Numbers are modelled as
integers; dictionary keys are strings, as JSON guarantees. -/
inductive Json where
  | null
  | bool (b : Bool)
  | num (n : Int)
  | str (s : String)
  | arr (elems : List Json)
  | obj (fields : List (String × Json))

/-- Python truthiness (`if x:`) for the modelled values. -/
def pyTruthy : Json → Bool
  | .null => false
  | .bool b => b
  | .num n => n != 0
  | .str s => s != ""
  | .arr [] => false
  | .arr (_ :: _) => true
  | .obj [] => false
  | .obj (_ :: _) => true

/-- Python `d.get(k, default)` on a dict body: the stored value if the key is
present (even if that value is `None`), otherwise the default. -/
def pyGetD (kvs : List (String × Json)) (k : String) (d : Json) : Json :=
  match kvs.find? (fun p => p.1 = k) with
  | some p => p.2
  | none => d

/-- Python `d.get(k)` (default `None`). -/
def pyGet (kvs : List (String × Json)) (k : String) : Json :=
  pyGetD kvs k .null

/-- Python `x == "lit"` for a modelled value against a string literal. -/
def jsonEqStr : Json → String → Bool
  | .str s, t => s = t
  | _, _ => false

/-- Substring test, modelling Python's `needle in hay` on strings and
`hay.find(needle) >= 0`. -/
def strContainsSub (hay pat : String) : Bool :=
  hay.data.tails.any (fun t => pat.data.isPrefixOf t)

/-- ASCII lower-casing, modelling `str.lower()` on the keys this program
inspects. -/
def asciiLower (s : String) : String :=
  ⟨s.data.map (fun c => if 'A' ≤ c && c ≤ 'Z' then Char.ofNat (c.toNat + 32) else c)⟩

/-- Whitespace as stripped by Python's `str.strip()`. -/
def pyWs (c : Char) : Bool :=
  c = ' ' || c = '\t' || c = '\n' || c = '\r' || c = '\x0b' || c = '\x0c'

/-- Python `s.strip()`. -/
def pyStrip (s : String) : String :=
  ⟨((s.data.dropWhile pyWs).reverse.dropWhile pyWs).reverse⟩

/-- Python `key in x`: key lookup on dicts, substring test on strings,
membership on lists; `TypeError` (modelled as `.error`) otherwise. -/
def pyContains (k : String) : Json → Except Unit Bool
  | .obj kvs => .ok (kvs.any (fun p => p.1 = k))
  | .str s => .ok (strContainsSub s k)
  | .arr xs => .ok (xs.any (fun x => jsonEqStr x k))
  | _ => .error ()

/-- Python `x[k]` with a string key: succeeds only on dicts containing the
key; `TypeError`/`KeyError` otherwise. -/
def pySub (j : Json) (k : String) : Except Unit Json :=
  match j with
  | .obj kvs =>
    match kvs.find? (fun p => p.1 = k) with
    | some p => .ok p.2
    | none => .error ()
  | _ => .error ()

/-- Python `for x in j`: lists iterate elements, strings iterate one-character
strings, dicts iterate their keys; other values raise `TypeError`. -/
def pyIter : Json → Option (List Json)
  | .arr xs => some xs
  | .str s => some (s.data.map (fun ch => Json.str ⟨[ch]⟩))
  | .obj kvs => some (kvs.map (fun p => Json.str p.1))
  | _ => none

/-- State of the collection loop in `parse_yandex_result` (lines 162-201):
the `labels`, `texts` and `objects` lists, plus a flag recording that an
exception was raised (the surrounding `try/except` then stops the loop but
keeps everything collected so far). -/
structure Coll where
  labels : List Json
  texts : List Json
  objects : List Json
  failed : Bool

/-- The empty collection state. -/
def Coll.empty : Coll := ⟨[], [], [], false⟩

/-- Loop body for `for lab in it["labels"]` (lines 177-180). -/
def labBody (c : Coll) (lab : Json) : Coll :=
  match lab with
  | .obj kvs =>
    let d := pyGet kvs "description"
    let v := if pyTruthy d then d else pyGet kvs "name"
    if pyTruthy v then { c with labels := c.labels ++ [v] } else c
  | _ => { c with failed := true }

/-- Loop body for `for obj in it["objects"]` (lines 190-193). -/
def objBody (c : Coll) (o : Json) : Coll :=
  match o with
  | .obj kvs =>
    let d := pyGet kvs "name"
    let v := if pyTruthy d then d else pyGet kvs "entityId"
    if pyTruthy v then { c with objects := c.objects ++ [v] } else c
  | _ => { c with failed := true }

/-- Loop body for `for ann in it["annotations"]` (lines 195-198): when the
type is `"LABEL"`, `ann.get("description", "")` is appended unconditionally,
including an empty string. -/
def legacyBody (c : Coll) (a : Json) : Coll :=
  match a with
  | .obj kvs =>
    if jsonEqStr (pyGet kvs "type") "LABEL" then
      { c with labels := c.labels ++ [pyGetD kvs "description" (.str "")] }
    else c
  | _ => { c with failed := true }

/-- Runs a loop body over elements, stopping at the first exception, as the
exception would abort the whole `try` block. -/
def foldUntilFail (f : Coll → Json → Coll) : Coll → List Json → Coll
  | c, [] => c
  | c, x :: xs =>
    let c' := f c x
    if c'.failed then c' else foldUntilFail f c' xs

/-- One iteration of `for it in inner` (lines 175-198): the four `in` checks
and their guarded loops, in program order. -/
def processIt (c : Coll) (it : Json) : Coll :=
  match pyContains "labels" it with
  | .error _ => { c with failed := true }
  | .ok hasLabs =>
    let c1 :=
      if hasLabs then
        match pySub it "labels" with
        | .error _ => { c with failed := true }
        | .ok labs =>
          match pyIter labs with
          | none => { c with failed := true }
          | some elems => foldUntilFail labBody c elems
      else c
    if c1.failed then c1 else
    match pyContains "textDetection" it with
    | .error _ => { c1 with failed := true }
    | .ok hasTd =>
      let c2 :=
        if hasTd then
          match pySub it "textDetection" with
          | .error _ => { c1 with failed := true }
          | .ok td =>
            match td with
            | .obj kvs =>
              let s := pyGetD kvs "text" (.str "")
              if pyTruthy s then { c1 with texts := c1.texts ++ [s] } else c1
            | _ => c1
        else c1
      if c2.failed then c2 else
      match pyContains "objects" it with
      | .error _ => { c2 with failed := true }
      | .ok hasObjs =>
        let c3 :=
          if hasObjs then
            match pySub it "objects" with
            | .error _ => { c2 with failed := true }
            | .ok objs =>
              match pyIter objs with
              | none => { c2 with failed := true }
              | some elems => foldUntilFail objBody c2 elems
          else c2
        if c3.failed then c3 else
        match pyContains "annotations" it with
        | .error _ => { c3 with failed := true }
        | .ok hasAnns =>
          if hasAnns then
            match pySub it "annotations" with
            | .error _ => { c3 with failed := true }
            | .ok anns =>
              match pyIter anns with
              | none => { c3 with failed := true }
              | some elems => foldUntilFail legacyBody c3 elems
          else c3

/-- One iteration of `for r in top_results` (lines 171-198):
`inner = r.get("results") or r.get("entities") or []`, then the item loop. -/
def processR (c : Coll) (r : Json) : Coll :=
  match r with
  | .obj kvs =>
    let i1 := pyGet kvs "results"
    let inner :=
      if pyTruthy i1 then i1
      else
        let i2 := pyGet kvs "entities"
        if pyTruthy i2 then i2 else .arr []
    match pyIter inner with
    | none => { c with failed := true }
    | some elems => foldUntilFail processIt c elems
  | _ => { c with failed := true }

/-- The whole guarded collection block (lines 168-201):
`top_results = resp_json.get("results") or resp_json.get("responses") or []`
followed by the nested loops; any exception is caught by the `except` and
collection simply stops. -/
def collect (resp : Json) : Coll :=
  match resp with
  | .obj kvs =>
    let t1 := pyGet kvs "results"
    let top :=
      if pyTruthy t1 then t1
      else
        let t2 := pyGet kvs "responses"
        if pyTruthy t2 then t2 else .arr []
    match pyIter top with
    | none => { Coll.empty with failed := true }
    | some elems => foldUntilFail processR Coll.empty elems
  | _ => { Coll.empty with failed := true }

mutual

/-- `walk_for_text` (lines 204-213): recursively collects, from every dict,
values of keys whose lower-cased name contains `"text"` when the value is a
non-blank string (stripped); otherwise it recurses into the value.  This
call is not inside the `try` block. -/
def walkForText : Json → List Json
  | .obj kvs => walkPairs kvs
  | .arr xs => walkList xs
  | _ => []

/-- `walk_for_text` over the key/value pairs of a dict. -/
def walkPairs : List (String × Json) → List Json
  | [] => []
  | (k, v) :: rest =>
    (if strContainsSub (asciiLower k) "text" &&
        (match v with | .str s => !(pyStrip s).isEmpty | _ => false) then
      match v with
      | .str s => [Json.str (pyStrip s)]
      | _ => []
    else walkForText v) ++ walkPairs rest

/-- `walk_for_text` over the elements of a list. -/
def walkList : List Json → List Json
  | [] => []
  | x :: rest => walkForText x ++ walkList rest

end

/-- A character of the class `[A-Z0-9\-]` under `re.I`. -/
def isCatChar (c : Char) : Bool :=
  ('A' ≤ c && c ≤ 'Z') || ('a' ≤ c && c ≤ 'z') || ('0' ≤ c && c ≤ '9') || c = '-'

/-- Maximal runs of catalog characters, with the unfinished leading run kept
separately. -/
def catRunsCore : List Char → List Char × List (List Char)
  | [] => ([], [])
  | c :: cs =>
    let p := catRunsCore cs
    if isCatChar c then (c :: p.1, p.2)
    else ([], if p.1.isEmpty then p.2 else p.1 :: p.2)

/-- The maximal runs of catalog characters of a character list, left to
right. -/
def catRuns (l : List Char) : List (List Char) :=
  let p := catRunsCore l
  if p.1.isEmpty then p.2 else p.1 :: p.2

/-- `re.search(r"[A-Z0-9\-]{4,}", s, re.I)`: the leftmost, greedily extended
match, i.e. the first maximal run of catalog characters of length at least
four. -/
def reSearchCat (s : String) : Option String :=
  ((catRuns s.data).find? (fun r => decide (4 ≤ r.length))).map (fun r => ⟨r⟩)

/-- The catalog-number loop (lines 232-240): walk the text fragments in
order; the first fragment with a match sets the catalog number (matches are
always at least four characters, so the length guard always passes and the
loop breaks); a non-string fragment raises `TypeError` (uncaught). -/
def catalogLoop : List Json → Except Unit String
  | [] => .ok "UNKNOWN"
  | .str s :: rest =>
    match reSearchCat s with
    | some m => .ok m
    | none => catalogLoop rest
  | _ :: _ => .error ()

/-- All-strings check used by `", ".join(labels[:3])` (line 223), which
raises `TypeError` on a non-string element. -/
def strsOf : List Json → Except Unit (List String)
  | [] => .ok []
  | .str s :: rest => (strsOf rest).map (fun l => s :: l)
  | _ :: _ => .error ()

/-- Python `sep.join l`. -/
def pyJoin (sep : String) : List String → String
  | [] => ""
  | [s] => s
  | s :: rest => s ++ sep ++ pyJoin sep rest

/-- The sentinel value. -/
def theUnknown : Json := .str "UNKNOWN"

/-- The record returned for a falsy response (lines 151-160); the final
return (lines 242-250) lists its keys in the same order. -/
def allUnknownRec : List (String × Json) :=
  [("catalog_number", theUnknown), ("description", theUnknown),
   ("machine_type", theUnknown), ("manufacturer", theUnknown),
   ("analogs", theUnknown), ("detail_description", theUnknown),
   ("machine_model", theUnknown)]

/-- The `labels` list after the `try` block and the truthiness filter
(line 217). -/
def labelsOf (resp : Json) : List Json :=
  (collect resp).labels.filter pyTruthy

/-- The `texts` list as it stands after the `try` block, the
`walk_for_text(resp_json)` call and the truthiness filter (line 218). -/
def collectedTexts (resp : Json) : List Json :=
  ((collect resp).texts ++ walkForText resp).filter pyTruthy

/-- The `objects` list after the `try` block and the truthiness filter
(line 219). -/
def objectsOf (resp : Json) : List Json :=
  (collect resp).objects.filter pyTruthy

/-- The returned dict (lines 242-250), given the catalog number, the label
strings joined for `description`, and the filtered `objects` and `texts`
lists.  `description` falls back to `"UNKNOWN"` when the join is empty
(line 223); `machine_type` is `objects[0]` if any (line 224);
`detail_description` is `texts[0]` or else the description (line 227). -/
def mkRec (catalog : String) (labStrs : List String) (objects texts : List Json) :
    List (String × Json) :=
  let joined := pyJoin ", " labStrs
  let description : Json := .str (if joined = "" then "UNKNOWN" else joined)
  [("catalog_number", .str catalog), ("description", description),
   ("machine_type", match objects with | o :: _ => o | [] => theUnknown),
   ("manufacturer", theUnknown), ("analogs", theUnknown),
   ("detail_description", match texts with | t :: _ => t | [] => description),
   ("machine_model", theUnknown)]

/-- `parse_yandex_result` (lines 143-250).  `.error` models an uncaught
Python exception, in the evaluation order of the source: first the
`", ".join(labels[:3])` call (line 223, `TypeError` on a non-string label),
then the `re.search` loop (lines 232-240, `TypeError` on a non-string text
fragment); `.ok` is the returned dict in construction order. -/
def parse_yandex_result (resp : Json) : Except Unit (List (String × Json)) :=
  if pyTruthy resp = false then .ok allUnknownRec
  else
    match strsOf ((labelsOf resp).take 3) with
    | .error _ => .error ()
    | .ok labStrs =>
      match catalogLoop (collectedTexts resp) with
      | .error _ => .error ()
      | .ok catalog =>
        .ok (mkRec catalog labStrs (objectsOf resp) (collectedTexts resp))

mutual

/-- Python `str()` of a decoded JSON value, modelling the claim C3 notion of
the "stringified form" of a response.  Quotes inside strings are not
re-escaped, which is exact for the values used here. -/
def pyRepr : Json → String
  | .null => "None"
  | .bool true => "True"
  | .bool false => "False"
  | .num n => toString n
  | .str s => "'" ++ s ++ "'"
  | .arr xs => "[" ++ pyReprList xs ++ "]"
  | .obj kvs => "\x7b" ++ pyReprPairs kvs ++ "\x7d"

/-- Python `str()` of the elements of a list, comma separated. -/
def pyReprList : List Json → String
  | [] => ""
  | [x] => pyRepr x
  | x :: rest => pyRepr x ++ ", " ++ pyReprList rest

/-- Python `str()` of the key/value pairs of a dict, comma separated. -/
def pyReprPairs : List (String × Json) → String
  | [] => ""
  | [(k, v)] => "'" ++ k ++ "': " ++ pyRepr v
  | (k, v) :: rest => "'" ++ k ++ "': " ++ pyRepr v ++ ", " ++ pyReprPairs rest

end

/-! ### The batch worker (src/app.py lines 280-403) -/

/-- Observable behaviour of one listed file: the bytes returned by
`download_file_bytes` (`none` models its `return None` on error), the value
returned by `call_yandex_vision` (`none` models its `return None` on error),
and whether `sheet.append_row` and the Drive move calls succeed. -/
structure ItemSpec where
  download : Option (List Nat)
  vision : Option Json
  appendOk : Bool
  moveOk : Bool

/-- Worker events recorded for the ordering claims: the start of an item's
processing (`state["current_file"]` is set), and the
`time.sleep(SLEEP_BETWEEN_BATCHES)` pause after a batch. -/
inductive Ev where
  | item (i : Nat)
  | pause
deriving DecidableEq, Repr

/-- Mutable state threaded through the batch loop: the `processed` counter,
the data rows appended to the sheet (item index and parsed record), the item
indices successfully moved, the event trace, and whether an uncaught
exception killed the worker thread. -/
structure LoopSt where
  processed : Nat
  rows : List (Nat × List (String × Json))
  moves : List Nat
  trace : List Ev
  crashed : Bool

/-- The sheet-append and file-move steps (lines 350-378) after the download
succeeded: a parsed record is appended only when the Yandex call produced a
truthy response and `append_row` succeeds; the move is attempted in every
case; both failures are caught; the counter is always incremented. -/
def afterResp (s0 : LoopSt) (i : Nat) (it : ItemSpec)
    (rec? : Option (List (String × Json))) : LoopSt :=
  let s1 := match rec? with
    | some rec => if it.appendOk then { s0 with rows := s0.rows ++ [(i, rec)] } else s0
    | none => s0
  let s2 := if it.moveOk then { s1 with moves := s1.moves ++ [i] } else s1
  { s2 with processed := s2.processed + 1 }

/-- Processing of one file (lines 328-384).  A falsy download result skips
the item entirely (`continue`) after incrementing the counter; a falsy
Yandex response skips only the parse/append step; `parse_yandex_result` is
called outside any `try`, so an exception in it kills the worker thread
(`crashed`). -/
def stepItem (s : LoopSt) (i : Nat) (it : ItemSpec) : LoopSt :=
  let s0 : LoopSt := { s with trace := s.trace ++ [Ev.item i] }
  match it.download with
  | none => { s0 with processed := s0.processed + 1 }
  | some bs =>
    if bs.isEmpty then { s0 with processed := s0.processed + 1 }
    else
      match it.vision with
      | some j =>
        if pyTruthy j then
          match parse_yandex_result j with
          | .error _ => { s0 with crashed := true }
          | .ok rec => afterResp s0 i it (some rec)
        else afterResp s0 i it none
      | none => afterResp s0 i it none

/-- The inner `for f in batch` loop; a crash aborts everything. -/
def runItems : LoopSt → List (Nat × ItemSpec) → LoopSt
  | s, [] => s
  | s, p :: ps =>
    let s' := stepItem s p.1 p.2
    if s'.crashed then s' else runItems s' ps

/-- The outer batch loop (lines 324-398): after each batch the worker sleeps
(`time.sleep(SLEEP_BETWEEN_BATCHES)`), recorded as a `pause` event. -/
def runBatches : LoopSt → List (List (Nat × ItemSpec)) → LoopSt
  | s, [] => s
  | s, b :: bs =>
    let s' := runItems s b
    if s'.crashed then s'
    else runBatches { s' with trace := s'.trace ++ [Ev.pause] } bs

/-- `files[i:i+B]` slicing for `i in range(0, total, B)`, via a fuel-bounded
recursion (the fuel is instantiated with the list length, which suffices for
any positive `B`). -/
def chunksF (B : Nat) : Nat → List α → List (List α)
  | _, [] => []
  | 0, _ :: _ => []
  | fuel + 1, x :: xs => ((x :: xs).take B) :: chunksF B fuel ((x :: xs).drop B)

/-- The batches of a list under batch size `B`. -/
def chunks (B : Nat) (l : List α) : List (List α) :=
  chunksF B l.length l

/-- Final observable state of one worker run. -/
structure WorkerResult where
  error : Option String
  done : Bool
  crashed : Bool
  total : Nat
  processed : Nat
  rows : List (Nat × List (String × Json))
  moves : List Nat
  trace : List Ev

/-- `worker_process` (lines 280-403).  `init` is the outcome of
`get_google_services` plus `ensure_sheet_headers` (the guarded block at
lines 287-295), `listing` the outcome of the Drive `files().list` call
(lines 300-309); both failures set the error and the done flag and return.
`B = 0` models `range(0, total, 0)` raising `ValueError`, which kills the
thread. -/
def worker_process (init : Except String Unit)
    (listing : Except String (List ItemSpec)) (B : Nat) : WorkerResult :=
  match init with
  | .error e => ⟨some e, true, false, 0, 0, [], [], []⟩
  | .ok _ =>
    match listing with
    | .error e => ⟨some e, true, false, 0, 0, [], [], []⟩
    | .ok files =>
      if files.isEmpty then ⟨none, true, false, 0, 0, [], [], []⟩
      else if B = 0 then ⟨none, false, true, files.length, 0, [], [], []⟩
      else
        let fin := runBatches ⟨0, [], [], [], false⟩ (chunks B files.enum)
        ⟨none, !fin.crashed, fin.crashed, files.length, fin.processed,
         fin.rows, fin.moves, fin.trace⟩

/-! ### Observable per-item outcomes, for stating the worker claims -/

/-- Whether the downloaded bytes pass the `if not img_bytes` guard. -/
def downloadOk (it : ItemSpec) : Bool :=
  match it.download with
  | some bs => !bs.isEmpty
  | none => false

/-- Whether the item reaches the parse/append step: download succeeded and
the Yandex response is truthy. -/
def gotResp (it : ItemSpec) : Bool :=
  downloadOk it && (match it.vision with | some j => pyTruthy j | none => false)

/-- The sheet row the item contributes, if any. -/
def itemRow (i : Nat) (it : ItemSpec) : Option (Nat × List (String × Json)) :=
  if gotResp it then
    match it.vision with
    | some j =>
      match parse_yandex_result j with
      | .ok rec => if it.appendOk then some (i, rec) else none
      | .error _ => none
    | none => none
  else none

/-- The move the item contributes, if any. -/
def itemMove (i : Nat) (it : ItemSpec) : Option Nat :=
  if downloadOk it && it.moveOk then some i else none

/-- The item's Yandex response, when consulted, does not make
`parse_yandex_result` raise.  Needed because an extractor exception kills the
worker thread (see the claim C1 analysis). -/
def safePair (p : Nat × ItemSpec) : Prop :=
  ∀ j, p.2.vision = some j → pyTruthy j = true →
    (parse_yandex_result j).isOk = true

/-! ### Lemmas about the extractor -/

lemma catRunsCore_chars (l : List Char) :
    (∀ c ∈ (catRunsCore l).1, isCatChar c = true) ∧
    (∀ r ∈ (catRunsCore l).2, ∀ c ∈ r, isCatChar c = true) := by
  induction l with
  | nil => simp [catRunsCore]
  | cons c cs ih =>
    obtain ⟨ih1, ih2⟩ := ih
    simp only [catRunsCore]
    by_cases hc : isCatChar c = true
    · simp only [hc, if_true]
      refine ⟨?_, ih2⟩
      intro d hd
      rcases List.mem_cons.mp hd with h | h
      · exact h ▸ hc
      · exact ih1 d h
    · simp only [hc, if_false]
      refine ⟨by simp, ?_⟩
      intro r hr
      by_cases hp : (catRunsCore cs).1.isEmpty
      · rw [if_pos hp] at hr
        exact ih2 r hr
      · rw [if_neg hp] at hr
        rcases List.mem_cons.mp hr with h | h
        · exact h ▸ ih1
        · exact ih2 r h

lemma catRuns_chars {l : List Char} {r : List Char} (hr : r ∈ catRuns l) :
    ∀ c ∈ r, isCatChar c = true := by
  obtain ⟨h1, h2⟩ := catRunsCore_chars l
  unfold catRuns at hr
  by_cases hp : (catRunsCore l).1.isEmpty
  · rw [if_pos hp] at hr
    exact h2 r hr
  · rw [if_neg hp] at hr
    rcases List.mem_cons.mp hr with h | h
    · exact h ▸ h1
    · exact h2 r h

lemma reSearchCat_spec {s m : String} (h : reSearchCat s = some m) :
    4 ≤ m.length ∧ m.data.all isCatChar = true := by
  unfold reSearchCat at h
  rcases Option.map_eq_some'.mp h with ⟨r, hfind, hm⟩
  have hp := List.find?_some hfind
  simp only [decide_eq_true_eq] at hp
  have hlen : 4 ≤ r.length := hp
  have hmem : r ∈ catRuns s.data := List.mem_of_find?_eq_some hfind
  subst hm
  refine ⟨hlen, ?_⟩
  exact List.all_eq_true.mpr (catRuns_chars hmem)

lemma catalogLoop_ok_ne_empty : ∀ {l : List Json} {cat : String},
    catalogLoop l = .ok cat → cat ≠ "" := by
  intro l
  induction l with
  | nil =>
    intro cat h
    have h' : (Except.ok "UNKNOWN" : Except Unit String) = .ok cat := h
    rw [← Except.ok.inj h']
    decide
  | cons x rest ih =>
    intro cat h
    cases x with
    | str s =>
      cases hm : reSearchCat s with
      | none =>
        rw [catalogLoop, hm] at h
        exact ih h
      | some m =>
        rw [catalogLoop, hm] at h
        have hcat := Except.ok.inj h
        subst hcat
        intro he
        subst he
        exact absurd (reSearchCat_spec hm).1 (by decide)
    | null => exact Except.noConfusion h
    | bool b => exact Except.noConfusion h
    | num n => exact Except.noConfusion h
    | arr xs => exact Except.noConfusion h
    | obj kvs => exact Except.noConfusion h

lemma catalogLoop_spec : ∀ (l : List Json) (cat : String), catalogLoop l = .ok cat →
    (cat = "UNKNOWN" ∧ ∀ u ∈ l, ∃ su, u = Json.str su ∧ reSearchCat su = none) ∨
    (∃ pre t post, l = pre ++ Json.str t :: post ∧
      (∀ u ∈ pre, ∃ su, u = Json.str su ∧ reSearchCat su = none) ∧
      reSearchCat t = some cat) := by
  intro l
  induction l with
  | nil =>
    intro cat h
    have h' : (Except.ok "UNKNOWN" : Except Unit String) = .ok cat := h
    left
    exact ⟨(Except.ok.inj h').symm, by simp⟩
  | cons x rest ih =>
    intro cat h
    cases x with
    | str s =>
      cases hm : reSearchCat s with
      | none =>
        rw [catalogLoop, hm] at h
        rcases ih cat h with ⟨hc, hall⟩ | ⟨pre, t, post, heq, hpre, hmt⟩
        · left
          refine ⟨hc, ?_⟩
          intro u hu
          rcases List.mem_cons.mp hu with h' | h'
          · exact ⟨s, h', hm⟩
          · exact hall u h'
        · right
          refine ⟨Json.str s :: pre, t, post, by rw [heq]; rfl, ?_, hmt⟩
          intro u hu
          rcases List.mem_cons.mp hu with h' | h'
          · exact ⟨s, h', hm⟩
          · exact hpre u h'
      | some m =>
        rw [catalogLoop, hm] at h
        right
        refine ⟨[], s, rest, rfl, by simp, ?_⟩
        rw [hm, Except.ok.inj h]
    | null => exact Except.noConfusion h
    | bool b => exact Except.noConfusion h
    | num n => exact Except.noConfusion h
    | arr xs => exact Except.noConfusion h
    | obj kvs => exact Except.noConfusion h

lemma collectedTexts_falsy : ∀ {j : Json}, pyTruthy j = false → collectedTexts j = [] := by
  intro j h
  cases j with
  | null => rfl
  | bool b => cases b with | false => rfl | true => exact absurd h (by decide)
  | num n => rfl
  | str s => rfl
  | arr xs => cases xs with | nil => rfl | cons x xs => exact absurd h (by simp [pyTruthy])
  | obj kvs => cases kvs with | nil => rfl | cons p ps => exact absurd h (by simp [pyTruthy])

/-- Inversion of `parse_yandex_result` on success: either the input was
falsy and the all-sentinel record is returned, or the record is assembled by
`mkRec` from a successful label join and catalog loop. -/
lemma parse_ok_inv {j : Json} {r : List (String × Json)}
    (h : parse_yandex_result j = .ok r) :
    (pyTruthy j = false ∧ r = allUnknownRec) ∨
    (pyTruthy j = true ∧ ∃ labStrs catalog,
      strsOf ((labelsOf j).take 3) = .ok labStrs ∧
      catalogLoop (collectedTexts j) = .ok catalog ∧
      r = mkRec catalog labStrs (objectsOf j) (collectedTexts j)) := by
  unfold parse_yandex_result at h
  by_cases hj : pyTruthy j = false
  · rw [if_pos hj] at h
    exact Or.inl ⟨hj, (Except.ok.inj h).symm⟩
  · rw [if_neg hj] at h
    right
    refine ⟨by simpa using hj, ?_⟩
    cases h1 : strsOf ((labelsOf j).take 3) with
    | error u =>
      rw [h1] at h
      exact Except.noConfusion h
    | ok labStrs =>
      rw [h1] at h
      cases h2 : catalogLoop (collectedTexts j) with
      | error u =>
        rw [h2] at h
        exact Except.noConfusion h
      | ok catalog =>
        rw [h2] at h
        exact ⟨labStrs, catalog, rfl, rfl, (Except.ok.inj h).symm⟩

lemma pyTruthy_str_of_ne {s : String} (h : s ≠ "") : pyTruthy (.str s) = true := by
  simp only [pyTruthy, ne_eq, bne_iff_ne]
  exact h

lemma head_filter_truthy {l tl : List Json} {o : Json}
    (h : l.filter pyTruthy = o :: tl) : pyTruthy o = true :=
  (List.mem_filter.mp (h ▸ List.mem_cons_self o tl)).2

lemma desc_truthy (labStrs : List String) :
    pyTruthy (.str (if pyJoin ", " labStrs = "" then "UNKNOWN" else pyJoin ", " labStrs)) = true := by
  by_cases h : pyJoin ", " labStrs = ""
  · rw [if_pos h]
    decide
  · rw [if_neg h]
    exact pyTruthy_str_of_ne h

/-! ### Lemmas about the worker -/

lemma stepItem_spec (s : LoopSt) (i : Nat) (it : ItemSpec)
    (hs : s.crashed = false) (hsafe : safePair (i, it)) :
    stepItem s i it =
      ⟨s.processed + 1,
       s.rows ++ (itemRow i it).toList,
       s.moves ++ (itemMove i it).toList,
       s.trace ++ [Ev.item i],
       false⟩ := by
  obtain ⟨pr, rws, mvs, tr, cr⟩ := s
  simp only at hs
  subst hs
  obtain ⟨dl, vis, ap, mv⟩ := it
  cases dl with
  | none => simp [stepItem, itemRow, itemMove, gotResp, downloadOk]
  | some bs =>
    cases bs with
    | nil => simp [stepItem, itemRow, itemMove, gotResp, downloadOk]
    | cons b bs' =>
      cases vis with
      | none =>
        cases mv <;>
          simp [stepItem, afterResp, itemRow, itemMove, gotResp, downloadOk]
      | some j =>
        by_cases hj : pyTruthy j = true
        · cases hp : parse_yandex_result j with
          | error u =>
            exfalso
            have hok := hsafe j rfl hj
            rw [hp] at hok
            exact Bool.false_ne_true hok
          | ok rec =>
            cases ap <;> cases mv <;>
              simp [stepItem, afterResp, itemRow, itemMove, gotResp, downloadOk, hj, hp]
        · have hj' : pyTruthy j = false := by
            cases hjv : pyTruthy j
            · rfl
            · exact absurd hjv hj
          cases mv <;>
            simp [stepItem, afterResp, itemRow, itemMove, gotResp, downloadOk, hj']

lemma runItems_spec : ∀ (l : List (Nat × ItemSpec)) (s : LoopSt),
    s.crashed = false → (∀ p ∈ l, safePair p) →
    runItems s l =
      ⟨s.processed + l.length,
       s.rows ++ l.filterMap (fun p => itemRow p.1 p.2),
       s.moves ++ l.filterMap (fun p => itemMove p.1 p.2),
       s.trace ++ l.map (fun p => Ev.item p.1),
       false⟩ := by
  intro l
  induction l with
  | nil =>
    intro s hs _
    obtain ⟨pr, rws, mvs, tr, cr⟩ := s
    simp only at hs
    subst hs
    simp [runItems]
  | cons p ps ih =>
    intro s hs hsafe
    have hstep := stepItem_spec s p.1 p.2 hs (hsafe p (List.mem_cons_self p ps))
    have hcr : (stepItem s p.1 p.2).crashed = false := by rw [hstep]
    have h1 : runItems s (p :: ps) = runItems (stepItem s p.1 p.2) ps := by
      simp [runItems, hcr]
    rw [h1, ih _ hcr (fun q hq => hsafe q (List.mem_cons_of_mem p hq)), hstep]
    cases hr : itemRow p.1 p.2 <;> cases hm : itemMove p.1 p.2 <;>
      simp [List.filterMap_cons, hr, hm, Option.toList, List.append_assoc] <;>
      omega

lemma runBatches_spec : ∀ (bs : List (List (Nat × ItemSpec))) (s : LoopSt),
    s.crashed = false → (∀ b ∈ bs, ∀ p ∈ b, safePair p) →
    runBatches s bs =
      ⟨s.processed + bs.flatten.length,
       s.rows ++ bs.flatten.filterMap (fun p => itemRow p.1 p.2),
       s.moves ++ bs.flatten.filterMap (fun p => itemMove p.1 p.2),
       s.trace ++ (bs.map (fun b => b.map (fun p => Ev.item p.1) ++ [Ev.pause])).flatten,
       false⟩ := by
  intro bs
  induction bs with
  | nil =>
    intro s hs _
    obtain ⟨pr, rws, mvs, tr, cr⟩ := s
    simp only at hs
    subst hs
    simp [runBatches]
  | cons b bs ih =>
    intro s hs hsafe
    have hrun := runItems_spec b s hs (hsafe b (List.mem_cons_self b bs))
    have h1 : runBatches s (b :: bs) =
        runBatches ⟨s.processed + b.length,
          s.rows ++ b.filterMap (fun p => itemRow p.1 p.2),
          s.moves ++ b.filterMap (fun p => itemMove p.1 p.2),
          (s.trace ++ b.map (fun p => Ev.item p.1)) ++ [Ev.pause],
          false⟩ bs := by
      simp [runBatches, hrun]
    rw [h1, ih _ rfl (fun c hc => hsafe c (List.mem_cons_of_mem b hc))]
    simp [List.filterMap_append, List.append_assoc, List.length_append]
    omega

lemma chunksF_flatten {α : Type} (B : Nat) (hB : 0 < B) :
    ∀ (fuel : Nat) (l : List α), l.length ≤ fuel → (chunksF B fuel l).flatten = l := by
  intro fuel
  induction fuel with
  | zero =>
    intro l hl
    have : l = [] := List.eq_nil_of_length_eq_zero (Nat.le_zero.mp hl)
    subst this
    rfl
  | succ n ih =>
    intro l hl
    cases l with
    | nil => rfl
    | cons x xs =>
      have hlen : ((x :: xs).drop B).length ≤ n := by
        rw [List.length_drop]
        simp only [List.length_cons] at hl ⊢
        omega
      rw [chunksF, List.flatten_cons, ih _ hlen, List.take_append_drop]

lemma chunks_flatten {α : Type} (B : Nat) (hB : 0 < B) (l : List α) :
    (chunks B l).flatten = l :=
  chunksF_flatten B hB l.length l le_rfl

lemma chunksF_length_le {α : Type} (B : Nat) :
    ∀ (fuel : Nat) (l : List α) (b : List α), b ∈ chunksF B fuel l → b.length ≤ B := by
  intro fuel
  induction fuel with
  | zero =>
    intro l b hb
    cases l with
    | nil => exact absurd hb (by simp [chunksF])
    | cons x xs => exact absurd hb (by simp [chunksF])
  | succ n ih =>
    intro l b hb
    cases l with
    | nil => exact absurd hb (by simp [chunksF])
    | cons x xs =>
      rw [chunksF] at hb
      rcases List.mem_cons.mp hb with h | h
      · rw [h]
        exact List.length_take_le B (x :: xs)
      · exact ih _ b h

lemma mem_of_mem_chunks {α : Type} {B : Nat} (hB : 0 < B) {l : List α} {b : List α}
    (hb : b ∈ chunks B l) {p : α} (hp : p ∈ b) : p ∈ l := by
  have hmem : p ∈ (chunks B l).flatten := List.mem_flatten.mpr ⟨b, hb, hp⟩
  rwa [chunks_flatten B hB l] at hmem

/-- Resolved behaviour of a run whose initialization and listing succeed and
whose responses never crash the extractor: the worker finishes normally with
every listed item counted, the rows and moves determined item-wise, and the
trace consisting of the batches in source order, each followed by a pause. -/
lemma worker_run_spec (files : List ItemSpec) (B : Nat) (hB : 0 < B)
    (hsafe : ∀ p ∈ files.enum, safePair p) :
    worker_process (.ok ()) (.ok files) B =
      ⟨none, true, false, files.length, files.length,
       files.enum.filterMap (fun p => itemRow p.1 p.2),
       files.enum.filterMap (fun p => itemMove p.1 p.2),
       ((chunks B files.enum).map
         (fun b => b.map (fun p => Ev.item p.1) ++ [Ev.pause])).flatten⟩ := by
  cases hf : files with
  | nil => rfl
  | cons f fs =>
    subst hf
    have hB0 : ¬ B = 0 := Nat.pos_iff_ne_zero.mp hB
    have hrb := runBatches_spec (chunks B ((f :: fs).enum)) ⟨0, [], [], [], false⟩ rfl
      (fun b hb p hp => hsafe p (mem_of_mem_chunks hB hb hp))
    have hstep : worker_process (.ok ()) (.ok (f :: fs)) B =
        if B = 0 then ⟨none, false, true, (f :: fs).length, 0, [], [], []⟩
        else
          ⟨none, !(runBatches ⟨0, [], [], [], false⟩ (chunks B ((f :: fs).enum))).crashed,
           (runBatches ⟨0, [], [], [], false⟩ (chunks B ((f :: fs).enum))).crashed,
           (f :: fs).length,
           (runBatches ⟨0, [], [], [], false⟩ (chunks B ((f :: fs).enum))).processed,
           (runBatches ⟨0, [], [], [], false⟩ (chunks B ((f :: fs).enum))).rows,
           (runBatches ⟨0, [], [], [], false⟩ (chunks B ((f :: fs).enum))).moves,
           (runBatches ⟨0, [], [], [], false⟩ (chunks B ((f :: fs).enum))).trace⟩ := rfl
    rw [hstep, if_neg hB0, hrb]
    rw [chunks_flatten B hB ((f :: fs).enum)]
    simp [List.enum_length]

/-! ### Claims about the worker -/

/-- Claim C5: when the Drive listing raises, the worker terminates with the
error recorded, the done flag set, the processed count at zero, no sheet row
appended and no file moved. -/
theorem claim5_listing_failure_fatal :
    ∀ (e : String) (B : Nat),
      (worker_process (.ok ()) (.error e) B).error = some e ∧
      (worker_process (.ok ()) (.error e) B).done = true ∧
      (worker_process (.ok ()) (.error e) B).processed = 0 ∧
      (worker_process (.ok ()) (.error e) B).rows = [] ∧
      (worker_process (.ok ()) (.error e) B).moves = [] :=
  fun _ _ => ⟨rfl, rfl, rfl, rfl, rfl⟩

/-- A single listed file whose download fails. -/
def c6CexFiles : List ItemSpec := [⟨none, none, true, true⟩]

/-- Claim C6, counterexample: one listed item whose download fails produces
zero emitted rows — the item does not appear with an all-sentinel record, it
is skipped entirely (only the processed counter moves). -/
theorem claim6_counterexample :
    (worker_process (.ok ()) (.ok c6CexFiles) 2).total = 1 ∧
    (worker_process (.ok ()) (.ok c6CexFiles) 2).rows = [] ∧
    (worker_process (.ok ()) (.ok c6CexFiles) 2).processed = 1 ∧
    (worker_process (.ok ()) (.ok c6CexFiles) 2).done = true ∧
    (worker_process (.ok ()) (.ok c6CexFiles) 2).error = none :=
  ⟨rfl, rfl, rfl, rfl, rfl⟩

/-- Claim C6, amended: every listed item is counted exactly once (the final
processed count equals the number of listed items and the run completes
without a run-level error), but items whose download fails or whose model
call returns nothing contribute no emitted row at all — the rows are exactly
those of the items whose download, model call and append all succeed, not
all-sentinel entries for the failures. -/
theorem claim6_all_items_counted :
    ∀ (files : List ItemSpec) (B : Nat), 0 < B →
      (∀ p ∈ files.enum, safePair p) →
      (worker_process (.ok ()) (.ok files) B).processed = files.length ∧
      (worker_process (.ok ()) (.ok files) B).done = true ∧
      (worker_process (.ok ()) (.ok files) B).error = none ∧
      (worker_process (.ok ()) (.ok files) B).rows =
        files.enum.filterMap (fun p => itemRow p.1 p.2) := by
  intro files B hB hsafe
  rw [worker_run_spec files B hB hsafe]
  exact ⟨rfl, rfl, rfl, rfl⟩

/-- Two listed files: one fully successful, one with a failed download. -/
def c6WitFiles : List ItemSpec :=
  [⟨some [1], some (.str "A"), true, true⟩, ⟨none, none, true, true⟩]

/-- Claim C6, witness: the amended theorem at a concrete two-item run. -/
theorem claim6_witness :
    (worker_process (.ok ()) (.ok c6WitFiles) 2).processed = 2 ∧
    (worker_process (.ok ()) (.ok c6WitFiles) 2).done = true ∧
    (worker_process (.ok ()) (.ok c6WitFiles) 2).error = none ∧
    (worker_process (.ok ()) (.ok c6WitFiles) 2).rows =
      c6WitFiles.enum.filterMap (fun p => itemRow p.1 p.2) := by
  have hsafe : ∀ p ∈ c6WitFiles.enum, safePair p := by
    intro p hp j hj htr
    have he : c6WitFiles.enum =
        [(0, ⟨some [1], some (.str "A"), true, true⟩), (1, ⟨none, none, true, true⟩)] := rfl
    rw [he] at hp
    simp only [List.mem_cons, List.mem_singleton, List.not_mem_nil, or_false] at hp
    rcases hp with rfl | rfl
    · cases hj
      rfl
    · exact Option.noConfusion hj
  exact claim6_all_items_counted c6WitFiles 2 (by decide) hsafe

lemma itemRow_none_of_appendFail {i : Nat} {it : ItemSpec}
    (h : it.appendOk = false) : itemRow i it = none := by
  unfold itemRow
  rw [h]
  split
  · split
    · split
      · rfl
      · rfl
    · rfl
  · rfl

lemma itemMove_none_of_moveFail {i : Nat} {it : ItemSpec}
    (h : it.moveOk = false) : itemMove i it = none := by
  unfold itemMove
  rw [h]
  simp

/-- Claim C7: spreadsheet-append and storage-move failures are non-fatal per
item — even when they fail for every item, every item is still counted as
processed, the run completes all batches normally with no run-level error,
and (necessarily) no row is recorded and no file is moved. -/
theorem claim7_sink_failures_nonfatal :
    ∀ (files : List ItemSpec) (B : Nat), 0 < B →
      (∀ p ∈ files.enum, safePair p) →
      (∀ p ∈ files.enum, p.2.appendOk = false ∧ p.2.moveOk = false) →
      (worker_process (.ok ()) (.ok files) B).done = true ∧
      (worker_process (.ok ()) (.ok files) B).error = none ∧
      (worker_process (.ok ()) (.ok files) B).processed = files.length ∧
      (worker_process (.ok ()) (.ok files) B).rows = [] ∧
      (worker_process (.ok ()) (.ok files) B).moves = [] := by
  intro files B hB hsafe hfail
  rw [worker_run_spec files B hB hsafe]
  refine ⟨rfl, rfl, rfl, ?_, ?_⟩
  · exact List.filterMap_eq_nil_iff.mpr
      (fun p hp => itemRow_none_of_appendFail (hfail p hp).1)
  · exact List.filterMap_eq_nil_iff.mpr
      (fun p hp => itemMove_none_of_moveFail (hfail p hp).2)

/-- One listed file whose sink steps both fail. -/
def c7WitFiles : List ItemSpec := [⟨some [1], none, false, false⟩]

/-- Claim C7, witness: the theorem at a concrete one-item run with failing
sinks. -/
theorem claim7_witness :
    (worker_process (.ok ()) (.ok c7WitFiles) 1).done = true ∧
    (worker_process (.ok ()) (.ok c7WitFiles) 1).error = none ∧
    (worker_process (.ok ()) (.ok c7WitFiles) 1).processed = 1 ∧
    (worker_process (.ok ()) (.ok c7WitFiles) 1).rows = [] ∧
    (worker_process (.ok ()) (.ok c7WitFiles) 1).moves = [] := by
  have hsafe : ∀ p ∈ c7WitFiles.enum, safePair p := by
    intro p hp j hj htr
    have he : c7WitFiles.enum = [(0, ⟨some [1], none, false, false⟩)] := rfl
    rw [he] at hp
    simp only [List.mem_singleton] at hp
    subst hp
    exact Option.noConfusion hj
  have hfail : ∀ p ∈ c7WitFiles.enum, p.2.appendOk = false ∧ p.2.moveOk = false := by
    intro p hp
    have he : c7WitFiles.enum = [(0, ⟨some [1], none, false, false⟩)] := rfl
    rw [he] at hp
    simp only [List.mem_singleton] at hp
    subst hp
    exact ⟨rfl, rfl⟩
  exact claim7_sink_failures_nonfatal c7WitFiles 1 (by decide) hsafe hfail

/-- Claim C8: the worker partitions the listed items into consecutive groups
of size `B` (each group no larger than `B`, the concatenation of the groups
being exactly the listed sequence in order), processes the groups strictly
sequentially with a pause after every group — hence between any two
consecutive groups — and visits the items in exactly the listed order, as
recorded by the event trace. -/
theorem claim8_batch_partitioning :
    ∀ (files : List ItemSpec) (B : Nat), 0 < B →
      (∀ p ∈ files.enum, safePair p) →
      (worker_process (.ok ()) (.ok files) B).trace =
        ((chunks B files.enum).map
          (fun b => b.map (fun p => Ev.item p.1) ++ [Ev.pause])).flatten ∧
      (chunks B files.enum).flatten = files.enum ∧
      (∀ b ∈ chunks B files.enum, b.length ≤ B) ∧
      (worker_process (.ok ()) (.ok files) B).done = true := by
  intro files B hB hsafe
  rw [worker_run_spec files B hB hsafe]
  exact ⟨rfl, chunks_flatten B hB files.enum,
    fun b hb => chunksF_length_le B files.enum.length files.enum b hb, rfl⟩

/-- Seven listed files (all with failing downloads, which does not affect
the trace). -/
def c8Files : List ItemSpec :=
  [⟨none, none, true, true⟩, ⟨none, none, true, true⟩, ⟨none, none, true, true⟩,
   ⟨none, none, true, true⟩, ⟨none, none, true, true⟩, ⟨none, none, true, true⟩,
   ⟨none, none, true, true⟩]

/-- Claim C8, witness: seven items with batch size three are processed as
groups of sizes `[3, 3, 1]`, in listed order, with a pause after each
group. -/
theorem claim8_witness :
    (worker_process (.ok ()) (.ok c8Files) 3).trace =
      [Ev.item 0, Ev.item 1, Ev.item 2, Ev.pause,
       Ev.item 3, Ev.item 4, Ev.item 5, Ev.pause,
       Ev.item 6, Ev.pause] ∧
    (chunks 3 c8Files.enum).map List.length = [3, 3, 1] ∧
    (worker_process (.ok ()) (.ok c8Files) 3).done = true := by
  have hsafe : ∀ p ∈ c8Files.enum, safePair p := by
    intro p hp j hj htr
    have he : c8Files.enum =
        [(0, ⟨none, none, true, true⟩), (1, ⟨none, none, true, true⟩),
         (2, ⟨none, none, true, true⟩), (3, ⟨none, none, true, true⟩),
         (4, ⟨none, none, true, true⟩), (5, ⟨none, none, true, true⟩),
         (6, ⟨none, none, true, true⟩)] := rfl
    rw [he] at hp
    simp only [List.mem_cons, List.mem_singleton, List.not_mem_nil, or_false] at hp
    rcases hp with rfl | rfl | rfl | rfl | rfl | rfl | rfl <;> exact Option.noConfusion hj
  have h := claim8_batch_partitioning c8Files 3 (by decide) hsafe
  exact ⟨h.1.trans rfl, rfl, h.2.2.2⟩

/-! ### Claims about the extractor -/

/-- An input on which `parse_yandex_result` raises: the `textDetection.text`
value is the (truthy) number `123`, so it is collected into `texts` and
reaches `re.search(pattern, t)` at line 234, which raises `TypeError` on a
non-string — outside any `try`. -/
def c1CexInput : Json :=
  .obj [("results", .arr [.obj [("results", .arr
    [.obj [("textDetection", .obj [("text", .num 123)])]])]])]

/-- Claim C1, counterexample: the extractor does not return on every input —
a valid decoded JSON response whose `textDetection.text` field is a number
makes `parse_yandex_result` raise an uncaught `TypeError` (modelled as
`.error`). -/
theorem claim1_counterexample : parse_yandex_result c1CexInput = .error () := rfl

/-- Claim C1, amended: whenever `parse_yandex_result` returns (it can raise
`TypeError` on responses whose collected label or text fragments are
non-strings, and extracted values are the raw — not trimmed — stored
values), every field of the returned record holds a truthy value: no field
is missing, `None`, or the empty string, and every string-valued field is a
non-empty string. -/
theorem claim1_fields_truthy :
    ∀ (j : Json) (r : List (String × Json)), parse_yandex_result j = .ok r →
      r.all (fun p => pyTruthy p.2) = true := by
  intro j r h
  rcases parse_ok_inv h with ⟨_, rfl⟩ | ⟨_, labStrs, catalog, _, h2, rfl⟩
  · decide
  · simp only [mkRec, List.all_cons, List.all_nil, Bool.and_true, Bool.and_eq_true]
    have hcat : pyTruthy (.str catalog) = true :=
      pyTruthy_str_of_ne (catalogLoop_ok_ne_empty h2)
    have hdesc := desc_truthy labStrs
    refine ⟨hcat, hdesc, ?_, by decide, by decide, ?_, by decide⟩
    · cases ho : objectsOf j with
      | nil => simp [theUnknown, pyTruthy]
      | cons o tl =>
        simp only
        exact head_filter_truthy (l := (collect j).objects) ho
    · cases ht : collectedTexts j with
      | nil => exact hdesc
      | cons t tl =>
        simp only
        exact head_filter_truthy (l := (collect j).texts ++ walkForText j) ht

/-- Claim C1, witness: the amended theorem applied to the `None` input. -/
theorem claim1_witness : allUnknownRec.all (fun p => pyTruthy p.2) = true :=
  claim1_fields_truthy .null allUnknownRec rfl

/-- Claim C2, counterexample: the record returned by the extractor has seven
fields, not six — the six canonical ones plus `detail_description`. -/
theorem claim2_counterexample :
    parse_yandex_result .null = .ok allUnknownRec ∧
    allUnknownRec.map Prod.fst =
      ["catalog_number", "description", "machine_type", "manufacturer",
       "analogs", "detail_description", "machine_model"] ∧
    (allUnknownRec.map Prod.fst).length = 7 ∧
    "detail_description" ∈ allUnknownRec.map Prod.fst ∧
    allUnknownRec.map Prod.fst ≠
      ["catalog_number", "description", "manufacturer", "analogs",
       "machine_type", "machine_model"] :=
  ⟨rfl, rfl, rfl, by decide, by decide⟩

/-- Claim C2, amended: every record returned by `parse_yandex_result` has
exactly seven fields, in order `catalog_number, description, machine_type,
manufacturer, analogs, detail_description, machine_model` — the six
canonical fields of the claim plus `detail_description`. -/
theorem claim2_seven_fields :
    ∀ (j : Json) (r : List (String × Json)), parse_yandex_result j = .ok r →
      r.map Prod.fst =
        ["catalog_number", "description", "machine_type", "manufacturer",
         "analogs", "detail_description", "machine_model"] := by
  intro j r h
  rcases parse_ok_inv h with ⟨_, rfl⟩ | ⟨_, labStrs, catalog, _, _, rfl⟩
  · rfl
  · rfl

/-- Claim C2, witness: the amended theorem applied to the `None` input. -/
theorem claim2_witness :
    allUnknownRec.map Prod.fst =
      ["catalog_number", "description", "machine_type", "manufacturer",
       "analogs", "detail_description", "machine_model"] :=
  claim2_seven_fields .null allUnknownRec rfl

/-- The direct-object input of claim C3: a response that is itself a dict
with a `catalog_number` key, whose stringified form also contains the line
`Catalog Number: Y`. -/
def c3Input : Json :=
  .obj [("catalog_number", .str "X"), ("note", .str "Catalog Number: Y")]

/-- Claim C3, counterexample: for a direct object with
`catalog_number = "X"` whose stringified form contains `"Catalog Number: Y"`,
the extractor returns `"UNKNOWN"`, not `"X"` — there is no direct-object
extraction in the code at all. -/
theorem claim3_counterexample :
    pyGet [("catalog_number", .str "X"), ("note", .str "Catalog Number: Y")]
      "catalog_number" = .str "X" ∧
    strContainsSub (pyRepr c3Input) "Catalog Number: Y" = true ∧
    parse_yandex_result c3Input = .ok allUnknownRec ∧
    pyGet allUnknownRec "catalog_number" = .str "UNKNOWN" ∧
    Json.str "UNKNOWN" ≠ Json.str "X" :=
  ⟨rfl, by decide, rfl, rfl, by simp⟩

/-- Claim C3, amended: the extractor ignores direct object keys entirely —
for any direct object `{"catalog_number": x, "note": y}` (no key of which
contains `"text"`), every field of the result is the sentinel, and in
particular `catalog_number` is `"UNKNOWN"`, never `x`. -/
theorem claim3_direct_object_ignored :
    ∀ x y : String,
      parse_yandex_result (.obj [("catalog_number", .str x), ("note", .str y)]) =
        .ok allUnknownRec :=
  fun _ _ => rfl

/-- Claim C4, counterexample: on the plain-text response
`"Description: A\nDescription: B"` the extracted `description` is
`"UNKNOWN"`, not `"B"` — the code has no `Key: value` line parsing. -/
theorem claim4_counterexample :
    parse_yandex_result (.str "Description: A\nDescription: B") = .ok allUnknownRec ∧
    pyGet allUnknownRec "description" = .str "UNKNOWN" ∧
    Json.str "UNKNOWN" ≠ Json.str "B" :=
  ⟨rfl, rfl, by simp⟩

/-- Claim C4, amended: the extractor performs no line-pattern extraction —
any plain-string response (in particular `"Description: A\nDescription: B"`)
yields the all-sentinel record, so `description` is `"UNKNOWN"`, not the
last `Description:` line's value. -/
theorem claim4_plain_text_all_unknown :
    ∀ s : String, parse_yandex_result (.str s) = .ok allUnknownRec := by
  intro s
  by_cases h : s = ""
  · subst h
    rfl
  · unfold parse_yandex_result
    rw [if_neg (by simp [pyTruthy, h])]
    rfl

/-- Claim C9: the `catalog_number` field of any returned record is either
the sentinel `"UNKNOWN"` — in which case every collected text fragment is a
string without a `[A-Z0-9\-]{4,}` match — or a string of length at least
four consisting only of letters, digits and hyphens, namely the first match
of the first collected text fragment that has one. -/
theorem claim9_catalog_number_shape :
    ∀ (j : Json) (r : List (String × Json)), parse_yandex_result j = .ok r →
      (pyGet r "catalog_number" = Json.str "UNKNOWN" ∧
        ∀ u ∈ collectedTexts j, ∃ su, u = Json.str su ∧ reSearchCat su = none) ∨
      (∃ s, pyGet r "catalog_number" = Json.str s ∧ 4 ≤ s.length ∧
        s.data.all isCatChar = true ∧
        ∃ pre t post, collectedTexts j = pre ++ Json.str t :: post ∧
          (∀ u ∈ pre, ∃ su, u = Json.str su ∧ reSearchCat su = none) ∧
          reSearchCat t = some s) := by
  intro j r h
  rcases parse_ok_inv h with ⟨hf, rfl⟩ | ⟨_, labStrs, catalog, _, h2, rfl⟩
  · left
    refine ⟨rfl, ?_⟩
    rw [collectedTexts_falsy hf]
    simp
  · have hget : pyGet (mkRec catalog labStrs (objectsOf j) (collectedTexts j))
        "catalog_number" = .str catalog := rfl
    rcases catalogLoop_spec _ _ h2 with ⟨hcat, hall⟩ | ⟨pre, t, post, heq, hpre, hm⟩
    · left
      exact ⟨hget.trans (by rw [hcat]), hall⟩
    · right
      obtain ⟨hlen, hchars⟩ := reSearchCat_spec hm
      exact ⟨catalog, hget, hlen, hchars, pre, t, post, heq, hpre, hm⟩

/-- Claim C9, witness: the theorem applied to the `None` input, where the
catalog number is the sentinel. -/
theorem claim9_witness :
    (pyGet allUnknownRec "catalog_number" = Json.str "UNKNOWN" ∧
      ∀ u ∈ collectedTexts .null, ∃ su, u = Json.str su ∧ reSearchCat su = none) ∨
    (∃ s, pyGet allUnknownRec "catalog_number" = Json.str s ∧ 4 ≤ s.length ∧
      s.data.all isCatChar = true ∧
      ∃ pre t post, collectedTexts .null = pre ++ Json.str t :: post ∧
        (∀ u ∈ pre, ∃ su, u = Json.str su ∧ reSearchCat su = none) ∧
        reSearchCat t = some s) :=
  claim9_catalog_number_shape .null allUnknownRec rfl

/-- Claim C10: the `manufacturer`, `analogs` and `machine_model` fields of
any record returned by `parse_yandex_result` are always exactly the
sentinel `"UNKNOWN"` — the code assigns them the literal sentinel and never
overwrites them. -/
theorem claim10_fixed_sentinels :
    ∀ (j : Json) (r : List (String × Json)), parse_yandex_result j = .ok r →
      pyGet r "manufacturer" = Json.str "UNKNOWN" ∧
      pyGet r "analogs" = Json.str "UNKNOWN" ∧
      pyGet r "machine_model" = Json.str "UNKNOWN" := by
  intro j r h
  rcases parse_ok_inv h with ⟨_, rfl⟩ | ⟨_, labStrs, catalog, _, _, rfl⟩
  · exact ⟨rfl, rfl, rfl⟩
  · exact ⟨rfl, rfl, rfl⟩

/-- Claim C10, witness: the theorem applied to the `None` input. -/
theorem claim10_witness :
    pyGet allUnknownRec "manufacturer" = Json.str "UNKNOWN" ∧
    pyGet allUnknownRec "analogs" = Json.str "UNKNOWN" ∧
    pyGet allUnknownRec "machine_model" = Json.str "UNKNOWN" :=
  claim10_fixed_sentinels .null allUnknownRec rfl

end Botmother
